import Mathlib

/-!
Shallow embedding of the message-ingestion and session-lifecycle engine of
the `claude-assistant-rs` prototype (src/prototypes/claude-assistant-rs/src),
together with theorems settling the frozen claims about it.

Conventions of the embedding:
* Rust `String`/`&str` values are Lean `String`; byte blobs are `List Nat`
  (each entry one byte).
* `chrono::DateTime<Utc>` is modelled by `Int` (a totally ordered timestamp);
  every call to `Utc::now()` becomes an explicit `now : Int` argument.
* `HashMap<String, V>` is modelled by an association list
  `List (String × V)` with replace-on-insert semantics (`insertA`), which is
  extensionally the map the Rust code maintains.
* External effects (tmux calls, SQLite answers, the plist crate, filesystem
  writes) are modelled as explicit inputs: query answers are fields of the
  row records handed to the reader, command outcomes are fields of an
  environment record, and emitted commands are reified as an `Effect` list.
* `char::to_lowercase` / `char::is_alphanumeric` / `char::is_alphabetic` /
  `str::trim` use Unicode tables that are outside this embedding; they are
  modelled by their ASCII fragments (`Char.toLower`, `asciiAlphanumeric`,
  `asciiAlphabetic`, `rustTrim`), which agree with the Rust functions on all
  ASCII input.  Theorems whose truth depends on these functions either
  restrict their inputs to ASCII or do not depend on the non-ASCII cases.
-/

/-- Association-list lookup, modelling `HashMap::get`. -/
def lookupA {α : Type} : List (String × α) → String → Option α
  | [], _ => none
  | (k', v') :: t, k => if k' = k then some v' else lookupA t k

/-- Association-list insert with replacement, modelling `HashMap::insert`. -/
def insertA {α : Type} : List (String × α) → String → α → List (String × α)
  | [], k, v => [(k, v)]
  | (k', v') :: t, k, v => if k' = k then (k, v) :: t else (k', v') :: insertA t k v

theorem lookupA_insertA {α : Type} (l : List (String × α)) (k k' : String) (v : α) :
    lookupA (insertA l k v) k' = if k' = k then some v else lookupA l k' := by
  induction l with
  | nil =>
    by_cases h : k = k'
    · subst h; simp [insertA, lookupA]
    · have h' : ¬ k' = k := fun hh => h hh.symm
      simp [insertA, lookupA, h, h']
  | cons p t ih =>
    obtain ⟨k0, v0⟩ := p
    by_cases hk : k0 = k
    · subst hk
      by_cases h : k0 = k'
      · subst h; simp [insertA, lookupA]
      · have h' : ¬ k' = k0 := fun hh => h hh.symm
        simp [insertA, lookupA, h, h']
    · by_cases h1 : k0 = k'
      · subst h1
        have h' : ¬ k0 = k := hk
        simp [insertA, lookupA, hk, h']
      · simp [insertA, lookupA, hk, h1, ih]

/-- ASCII fragment of `char::to_lowercase`: lower exactly the ASCII uppercase
letters (the Unicode case table is outside the embedding). -/
def lowerChar (c : Char) : Char :=
  if 65 ≤ c.toNat ∧ c.toNat ≤ 90 then Char.ofNat (c.toNat + 32) else c

/-- ASCII lowercase of a string, modelling `str::to_lowercase` on ASCII
input. -/
def toLowerStr (s : String) : String := ⟨s.data.map lowerChar⟩

-- ===========================================================================
-- contacts.rs
-- ===========================================================================

/-- `normalize_phone` from contacts.rs: strip non-digits, keep a leading `+`,
add a country code heuristically (`has_plus` is `starts_with('+')`, `digits`
is the kept-digit string; the four branches mirror the Rust if-chain). -/
def normalize_phone (phone : String) : String :=
  if phone.data.head? = some '+' then
    ⟨'+' :: phone.data.filter Char.isDigit⟩
  else if (phone.data.filter Char.isDigit).length = 10 then
    ⟨'+' :: '1' :: phone.data.filter Char.isDigit⟩
  else if (phone.data.filter Char.isDigit).length = 11 ∧
      (phone.data.filter Char.isDigit).head? = some '1' then
    ⟨'+' :: phone.data.filter Char.isDigit⟩
  else
    ⟨'+' :: phone.data.filter Char.isDigit⟩

/-- `Contact` from contacts.rs. -/
structure Contact where
  name : String
  phone : Option String
  email : Option String
  tier : String
  deriving Repr, DecidableEq

/-- One element of the JSON array emitted by the contacts CLI; each field is
`c["field"].as_str()` (absent or non-string gives `none`). -/
structure RawContact where
  name : Option String
  phone : Option String
  email : Option String
  tier : Option String
  deriving Repr, DecidableEq

/-- The `Contact` record that `ContactsManager::load` builds from one JSON
element (contacts.rs lines 56-67). -/
def contactOfJson (c : RawContact) : Contact :=
  { name := c.name.getD ""
    phone := c.phone.map normalize_phone
    email := c.email.map toLowerStr
    tier := c.tier.getD "unknown" }

/-- One loop iteration of `ContactsManager::load` (contacts.rs lines 56-81):
index the contact by normalized phone, lowercased email, and lowercased
name. -/
def loadStep (cache : List (String × Contact)) (c : RawContact) :
    List (String × Contact) :=
  let ct := contactOfJson c
  let cache1 := match ct.phone with
    | some p => insertA cache p ct
    | none => cache
  let cache2 := match ct.email with
    | some e => insertA cache1 e ct
    | none => cache1
  insertA cache2 (toLowerStr (ct.name)) ct

/-- The cache built by `ContactsManager::load` from the parsed JSON array. -/
def loadCache (raws : List RawContact) : List (String × Contact) :=
  raws.foldl loadStep []

/-- `BLESSED_TIERS` from config.rs. -/
def BLESSED_TIERS : List String := ["admin", "wife", "family", "favorite"]

/-- `ContactsManager::is_blessed_tier`. -/
def is_blessed_tier (tier : String) : Bool := BLESSED_TIERS.contains tier

/-- `ContactsManager::lookup_phone` against a loaded cache (the cache is the
map built by `load`; lookup normalizes first). -/
def lookup_phone (cache : List (String × Contact)) (phone : String) : Option Contact :=
  lookupA cache (normalize_phone phone)

-- ===========================================================================
-- registry.rs
-- ===========================================================================

/-- `SessionData` from registry.rs (timestamps are `Int`). -/
structure SessionData where
  chat_id : String
  session_name : String
  transcript_dir : String
  session_type : String
  contact_name : Option String
  display_name : Option String
  tier : Option String
  participants : Option (List String)
  created_at : Int
  updated_at : Int
  last_message_time : Option Int
  deriving Repr, DecidableEq

/-- The in-memory registry map (`SessionRegistry.data`). -/
def Registry : Type := List (String × SessionData)

/-- The arguments of one `SessionRegistry::register` call, with the value of
`Utc::now()` at the time of the call. -/
structure RegCall where
  chatId : String
  sessionName : String
  transcriptDir : String
  sessionType : String
  contactName : Option String
  displayName : Option String
  tier : Option String
  participants : Option (List String)
  now : Int
  deriving Repr, DecidableEq

/-- `SessionRegistry::register` (registry.rs lines 81-117): insert or update,
carrying `created_at` and `last_message_time` forward from any existing
entry and stamping `updated_at` with now.  The on-disk save is I/O and not
part of the in-memory map transition. -/
def register (r : Registry) (c : RegCall) : Registry :=
  let existing := lookupA r c.chatId
  let createdAt := (existing.map SessionData.created_at).getD c.now
  insertA r c.chatId
    { chat_id := c.chatId
      session_name := c.sessionName
      transcript_dir := c.transcriptDir
      session_type := c.sessionType
      contact_name := c.contactName
      display_name := c.displayName
      tier := c.tier
      participants := c.participants
      created_at := createdAt
      updated_at := c.now
      last_message_time := existing.bind SessionData.last_message_time }

/-- Fold a sequence of `register` calls over a registry. -/
def applyRegs (r : Registry) (calls : List RegCall) : Registry :=
  calls.foldl register r

/-- `SessionRegistry::update_last_message` (registry.rs lines 134-142).
Returns the new map, the returned `Result` (save errors propagate), and
whether a save was attempted.  `saveResult` is the outcome the filesystem
would give to `save()`. -/
def update_last_message (r : Registry) (chatId : String) (now : Int)
    (saveResult : Except String Unit) : Registry × Except String Unit × Bool :=
  match lookupA r chatId with
  | some s =>
      (insertA r chatId { s with last_message_time := some now, updated_at := now },
       saveResult, true)
  | none => (r, Except.ok (), false)

/-- The first `register` call of a sequence that targets `cid`. -/
def firstCallOn (cid : String) (calls : List RegCall) : Option RegCall :=
  calls.find? (fun c => decide (c.chatId = cid))

/-- The latest `register` call of a sequence that targets `cid`. -/
def lastCallOn (cid : String) (calls : List RegCall) : Option RegCall :=
  firstCallOn cid calls.reverse

-- ===========================================================================
-- Theorem C9: normalize_phone is idempotent
-- ===========================================================================

theorem filter_isDigit_idem (l : List Char) :
    (l.filter Char.isDigit).filter Char.isDigit = l.filter Char.isDigit := by
  induction l with
  | nil => rfl
  | cons c t ih =>
    by_cases h : Char.isDigit c
    · simp [List.filter, h, ih]
    · simp [List.filter, h, ih]

theorem normalize_phone_plus_digits (l : List Char) (hl : ∀ c ∈ l, Char.isDigit c) :
    normalize_phone ⟨'+' :: l⟩ = ⟨'+' :: l⟩ := by
  unfold normalize_phone
  have h1 : (String.mk ('+' :: l)).data.head? = some '+' := rfl
  rw [if_pos h1]
  have h2 : (String.mk ('+' :: l)).data.filter Char.isDigit = l := by
    show ('+' :: l).filter Char.isDigit = l
    have hplus : Char.isDigit '+' = false := by decide
    rw [List.filter_cons]
    simp only [hplus, Bool.false_eq_true, if_false]
    exact List.filter_eq_self.mpr hl
  rw [h2]

theorem normalize_phone_shape (s : String) :
    ∃ l, normalize_phone s = ⟨'+' :: l⟩ ∧ ∀ c ∈ l, Char.isDigit c := by
  unfold normalize_phone
  split_ifs with h1 h2 h3
  · exact ⟨_, rfl, fun c hc => List.of_mem_filter hc⟩
  · refine ⟨_, rfl, fun c hc => ?_⟩
    rcases List.mem_cons.mp hc with rfl | hc'
    · decide
    · exact List.of_mem_filter hc'
  · exact ⟨_, rfl, fun c hc => List.of_mem_filter hc⟩
  · exact ⟨_, rfl, fun c hc => List.of_mem_filter hc⟩

/-- C9: `normalize_phone ∘ normalize_phone = normalize_phone`. -/
theorem normalize_phone_idempotent (s : String) :
    normalize_phone (normalize_phone s) = normalize_phone s := by
  obtain ⟨l, hl, hd⟩ := normalize_phone_shape s
  rw [hl, normalize_phone_plus_digits l hd]

-- ===========================================================================
-- Theorem C10: update_last_message on a missing chat_id
-- ===========================================================================

/-- C10: calling `update_last_message` with a chat_id that has no entry
returns `Ok`, leaves the registry unchanged, and attempts no save. -/
theorem update_last_message_missing (r : Registry) (chatId : String) (now : Int)
    (saveResult : Except String Unit) (h : lookupA r chatId = none) :
    update_last_message r chatId now saveResult = (r, Except.ok (), false) := by
  unfold update_last_message
  rw [h]

/-- Witness for C10 at a concrete registry and chat_id. -/
theorem update_last_message_missing_witness :
    update_last_message ([] : Registry) "+16175551234" 42 (Except.ok ())
      = (([] : Registry), Except.ok (), false) :=
  update_last_message_missing [] "+16175551234" 42 (Except.ok ()) (by rfl)

-- ===========================================================================
-- Theorem C3: register preserves created_at / carries last_message_time
-- ===========================================================================

theorem find?_append_or {α : Type} (p : α → Bool) (l1 l2 : List α) :
    (l1 ++ l2).find? p = ((l1.find? p).orElse (fun _ => l2.find? p)) := by
  induction l1 with
  | nil => simp [List.find?]
  | cons a t ih =>
    by_cases h : p a <;> simp [List.find?, h, ih, Option.orElse]

theorem lookupA_register_self (r : Registry) (c : RegCall) :
    lookupA (register r c) c.chatId = some
      { chat_id := c.chatId
        session_name := c.sessionName
        transcript_dir := c.transcriptDir
        session_type := c.sessionType
        contact_name := c.contactName
        display_name := c.displayName
        tier := c.tier
        participants := c.participants
        created_at := ((lookupA r c.chatId).map SessionData.created_at).getD c.now
        updated_at := c.now
        last_message_time := (lookupA r c.chatId).bind SessionData.last_message_time } := by
  unfold register
  rw [lookupA_insertA]
  simp

theorem lookupA_register_other (r : Registry) (c : RegCall) (cid : String)
    (h : ¬ c.chatId = cid) :
    lookupA (register r c) cid = lookupA r cid := by
  unfold register
  rw [lookupA_insertA, if_neg (fun hh => h hh.symm)]

theorem lastCallOn_cons_hit (cid : String) (c : RegCall) (cs : List RegCall)
    (hc : c.chatId = cid) :
    lastCallOn cid (c :: cs) =
      ((lastCallOn cid cs).orElse (fun _ => some c)) := by
  unfold lastCallOn firstCallOn
  rw [List.reverse_cons, find?_append_or]
  simp [List.find?, hc]

theorem lastCallOn_cons_miss (cid : String) (c : RegCall) (cs : List RegCall)
    (hc : ¬ c.chatId = cid) :
    lastCallOn cid (c :: cs) = lastCallOn cid cs := by
  unfold lastCallOn firstCallOn
  rw [List.reverse_cons, find?_append_or]
  simp [List.find?, hc, Option.orElse]
  cases (cs.reverse.find? fun c => decide (c.chatId = cid)) <;> rfl

theorem applyRegs_preserve (cid : String) (calls : List RegCall) :
    ∀ (r : Registry) (d0 : SessionData), lookupA r cid = some d0 →
    ∃ d, lookupA (applyRegs r calls) cid = some d ∧
      d.created_at = d0.created_at ∧
      d.last_message_time = d0.last_message_time ∧
      d.updated_at = ((lastCallOn cid calls).map RegCall.now).getD d0.updated_at := by
  induction calls with
  | nil =>
    intro r d0 h
    exact ⟨d0, h, rfl, rfl, by simp [lastCallOn, firstCallOn, List.find?]⟩
  | cons c cs ih =>
    intro r d0 h
    by_cases hc : c.chatId = cid
    · have hreg := lookupA_register_self r c
      rw [hc, h] at hreg
      obtain ⟨d, hd, hcr, hlm, hup⟩ := ih (register r c) _ hreg
      refine ⟨d, ?_, by simpa using hcr, by simpa using hlm, ?_⟩
      · simpa [applyRegs] using hd
      · rw [lastCallOn_cons_hit cid c cs hc]
        cases hlast : lastCallOn cid cs with
        | none => simp [hlast] at hup; simp [Option.orElse, hup]
        | some x => simp [hlast] at hup; simp [Option.orElse, hup]
    · have hreg := lookupA_register_other r c cid hc
      rw [h] at hreg
      obtain ⟨d, hd, hcr, hlm, hup⟩ := ih (register r c) d0 hreg
      refine ⟨d, by simpa [applyRegs] using hd, hcr, hlm, ?_⟩
      rw [lastCallOn_cons_miss cid c cs hc]
      exact hup

/-- C3: `created_at` equals the value set by the first `register` for the
chat_id, `updated_at` is the time of the latest `register`, and
`last_message_time` is carried forward from any existing entry (hence stays
`none` across a pure-register sequence starting with no entry). -/
theorem register_metadata_invariants :
    (∀ (r : Registry) (c : RegCall) (d0 : SessionData),
       lookupA r c.chatId = some d0 →
       ∃ d, lookupA (register r c) c.chatId = some d ∧
         d.created_at = d0.created_at ∧
         d.updated_at = c.now ∧
         d.last_message_time = d0.last_message_time) ∧
    (∀ (r0 : Registry) (cid : String) (calls : List RegCall) (d : SessionData),
       lookupA r0 cid = none →
       lookupA (applyRegs r0 calls) cid = some d →
       (∃ c, firstCallOn cid calls = some c ∧ d.created_at = c.now) ∧
       (∃ c, lastCallOn cid calls = some c ∧ d.updated_at = c.now) ∧
       d.last_message_time = none) := by
  constructor
  · intro r c d0 h
    refine ⟨_, lookupA_register_self r c, ?_, rfl, ?_⟩
    · simp [h]
    · simp [h]
  · intro r0 cid calls
    induction calls generalizing r0 with
    | nil =>
      intro d h0 hd
      rw [show applyRegs r0 [] = r0 from rfl] at hd
      rw [h0] at hd
      exact absurd hd (by simp)
    | cons c cs ih =>
      intro d h0 hd
      by_cases hc : c.chatId = cid
      · have hreg := lookupA_register_self r0 c
        rw [hc, h0] at hreg
        simp at hreg
        have hd' : lookupA (applyRegs (register r0 c) cs) cid = some d := by
          simpa [applyRegs] using hd
        obtain ⟨d', hlk, hcr, hlm, hup⟩ := applyRegs_preserve cid cs (register r0 c) _ hreg
        have hdd : d = d' := by rw [hd'] at hlk; exact Option.some.inj hlk
        subst hdd
        refine ⟨⟨c, ?_, by simpa using hcr⟩, ?_, by simpa using hlm⟩
        · simp [firstCallOn, List.find?, hc]
        · rw [lastCallOn_cons_hit cid c cs hc]
          cases hlast : lastCallOn cid cs with
          | none =>
            rw [hlast] at hup
            exact ⟨c, by simp [Option.orElse], by simpa using hup⟩
          | some x =>
            rw [hlast] at hup
            exact ⟨x, by simp [Option.orElse], by simpa using hup⟩
      · have hreg := lookupA_register_other r0 c cid hc
        rw [h0] at hreg
        have hd' : lookupA (applyRegs (register r0 c) cs) cid = some d := by
          simpa [applyRegs] using hd
        obtain ⟨h1, h2, h3⟩ := ih (register r0 c) d hreg hd'
        refine ⟨?_, ?_, h3⟩
        · simpa [firstCallOn, List.find?, hc] using h1
        · rwa [lastCallOn_cons_miss cid c cs hc]

/-- A concrete pair of register calls on the same chat_id, for the witness. -/
def c3callA : RegCall :=
  { chatId := "+16175551234", sessionName := "test-user", transcriptDir := "/tmp/test"
    sessionType := "individual", contactName := some "Test", displayName := none
    tier := some "admin", participants := none, now := 5 }

def c3callB : RegCall :=
  { chatId := "+16175551234", sessionName := "test-user-updated", transcriptDir := "/tmp/test"
    sessionType := "individual", contactName := some "Test Updated", displayName := none
    tier := some "wife", participants := none, now := 7 }

/-- The entry the two-call sequence produces. -/
def c3entry : SessionData :=
  { chat_id := "+16175551234", session_name := "test-user-updated"
    transcript_dir := "/tmp/test", session_type := "individual"
    contact_name := some "Test Updated", display_name := none, tier := some "wife"
    participants := none, created_at := 5, updated_at := 7, last_message_time := none }

/-- Witness for C3: a fresh registry, two register calls 2 time units apart;
created_at comes from the first call, updated_at from the second. -/
theorem register_metadata_invariants_witness :
    lookupA (applyRegs ([] : Registry) [c3callA, c3callB]) "+16175551234" = some c3entry ∧
    ((∃ c, firstCallOn "+16175551234" [c3callA, c3callB] = some c ∧ c3entry.created_at = c.now) ∧
     (∃ c, lastCallOn "+16175551234" [c3callA, c3callB] = some c ∧ c3entry.updated_at = c.now) ∧
     c3entry.last_message_time = none) :=
  ⟨by decide,
   register_metadata_invariants.2 [] "+16175551234" [c3callA, c3callB] c3entry
     (by decide) (by decide)⟩

-- ===========================================================================
-- session.rs: session-name derivation
-- ===========================================================================

theorem char_toNat_ofNat (n : Nat) (h : n.isValidChar) : (Char.ofNat n).toNat = n := by
  unfold Char.ofNat Char.toNat
  rw [dif_pos h]
  rfl

theorem char_le_iff_toNat (a c : Char) : (a ≤ c) ↔ a.toNat ≤ c.toNat := by
  rw [Char.le_def]
  exact ⟨fun h => Fin.le_def.mp h, fun h => Fin.le_def.mpr h⟩

theorem char_eq_iff_toNat (a c : Char) : (a = c) ↔ a.toNat = c.toNat := by
  constructor
  · rintro rfl; rfl
  · intro h; exact Char.eq_of_val_eq (UInt32.ext h)

/-- ASCII fragment of `char::is_alphanumeric` (the Unicode table is outside
the embedding; theorems restrict display names to ASCII where this is
used). -/
def asciiAlphanumeric (c : Char) : Bool :=
  decide ((65 ≤ c.toNat ∧ c.toNat ≤ 90) ∨ (97 ≤ c.toNat ∧ c.toNat ≤ 122) ∨
    (48 ≤ c.toNat ∧ c.toNat ≤ 57))

/-- `SessionManager::session_name_for_contact` (session.rs lines 236-238):
lowercase the contact name and turn spaces into hyphens. -/
def session_name_for_contact (contactName : String) : String :=
  ⟨(toLowerStr contactName).data.map (fun c => if c = ' ' then '-' else c)⟩

/-- `SessionManager::session_name_for_group` (session.rs lines 241-253):
with a display name, lowercase it, replace non-alphanumerics with `_` and
keep 20 chars; otherwise take the first 12 chars of the chat_id (the Rust
byte slice `[..12.min(len)]`, identical for the ASCII chat ids in use). -/
def session_name_for_group (chatId : String) (displayName : Option String) : String :=
  match displayName with
  | some name =>
      "group-" ++ String.mk (((toLowerStr name).data.map
        (fun c => if asciiAlphanumeric c then c else '_')).take 20)
  | none => "group-" ++ String.mk (chatId.data.take 12)

/-- Membership in the claim's class `[a-z0-9-]`. -/
def isKebabChar (c : Char) : Bool :=
  decide ((97 ≤ c.toNat ∧ c.toNat ≤ 122) ∨ (48 ≤ c.toNat ∧ c.toNat ≤ 57) ∨ c.toNat = 45)

/-- Membership in the claim's class `[a-z0-9_]`. -/
def isGroupChar (c : Char) : Bool :=
  decide ((97 ≤ c.toNat ∧ c.toNat ≤ 122) ∨ (48 ≤ c.toNat ∧ c.toNat ≤ 57) ∨ c.toNat = 95)

theorem lowerChar_toNat (c : Char) :
    (lowerChar c).toNat = if 65 ≤ c.toNat ∧ c.toNat ≤ 90 then c.toNat + 32 else c.toNat := by
  unfold lowerChar
  split_ifs with h
  · exact char_toNat_ofNat _ (Or.inl (by omega))
  · rfl

theorem kebabChar_of_allowed (c : Char)
    (h : asciiAlphanumeric c = true ∨ c = ' ' ∨ c = '-') :
    isKebabChar (if lowerChar c = ' ' then '-' else lowerChar c) = true := by
  have hlow := lowerChar_toNat c
  by_cases hsp : lowerChar c = ' '
  · rw [if_pos hsp]; decide
  · rw [if_neg hsp]
    have hsp' : ¬ (lowerChar c).toNat = 32 := by
      intro hh
      exact hsp ((char_eq_iff_toNat _ _).mpr hh)
    simp only [isKebabChar, decide_eq_true_eq]
    rcases h with h | h | h
    · simp only [asciiAlphanumeric, decide_eq_true_eq] at h
      split_ifs at hlow <;> omega
    · rw [char_eq_iff_toNat] at h
      have h32 : (' ' : Char).toNat = 32 := rfl
      rw [h32] at h
      split_ifs at hlow <;> omega
    · rw [char_eq_iff_toNat] at h
      have h45 : ('-' : Char).toNat = 45 := rfl
      rw [h45] at h
      split_ifs at hlow <;> omega

theorem headChar_of_alnum (c : Char) (h : asciiAlphanumeric c = true) :
    (97 ≤ (if lowerChar c = ' ' then '-' else lowerChar c).toNat ∧
      (if lowerChar c = ' ' then '-' else lowerChar c).toNat ≤ 122) ∨
    (48 ≤ (if lowerChar c = ' ' then '-' else lowerChar c).toNat ∧
      (if lowerChar c = ' ' then '-' else lowerChar c).toNat ≤ 57) := by
  have hlow := lowerChar_toNat c
  simp only [asciiAlphanumeric, decide_eq_true_eq] at h
  by_cases hsp : lowerChar c = ' '
  · exfalso
    have := (char_eq_iff_toNat _ _).mp hsp
    have h32 : (' ' : Char).toNat = 32 := rfl
    rw [h32] at this
    split_ifs at hlow <;> omega
  · rw [if_neg hsp]
    split_ifs at hlow <;> omega

theorem groupChar_of_mapped (c : Char) :
    isGroupChar (if asciiAlphanumeric (lowerChar c) then lowerChar c else '_') = true := by
  have hlow := lowerChar_toNat c
  by_cases h : asciiAlphanumeric (lowerChar c) = true
  · rw [if_pos h]
    simp only [asciiAlphanumeric, decide_eq_true_eq] at h
    simp only [isGroupChar, decide_eq_true_eq]
    split_ifs at hlow <;> omega
  · rw [if_neg (by simpa using h)]
    decide

-- ===========================================================================
-- Theorem C7 (corrected): session-name well-formedness
-- ===========================================================================

/-- C7 counterexample: the contact name `Bob_Smith` yields session name
`bob_smith`, which contains `_`, a character outside `[a-z0-9-]`. -/
theorem session_name_contact_counterexample :
    session_name_for_contact "Bob_Smith" = "bob_smith" ∧
    (session_name_for_contact "Bob_Smith").data.all isKebabChar = false := by
  constructor
  · decide
  · decide

/-- C7 (amended): for contact names made of ASCII alphanumerics, spaces and
hyphens that begin with an alphanumeric, the individual session name is
lowercase `[a-z0-9-]` and begins with a letter or digit; for ASCII display
names the group session name is `group-` plus at most 20 chars of
`[a-z0-9_]`; without a display name it is `group-` plus the first 12 chars
of the chat_id. -/
theorem session_names_wellformed :
    (∀ name : String,
      (∀ c ∈ name.data, asciiAlphanumeric c = true ∨ c = ' ' ∨ c = '-') →
      (∀ c0, name.data.head? = some c0 → asciiAlphanumeric c0 = true) →
      (session_name_for_contact name).data.all isKebabChar = true ∧
      (∀ c0, (session_name_for_contact name).data.head? = some c0 →
        (97 ≤ c0.toNat ∧ c0.toNat ≤ 122) ∨ (48 ≤ c0.toNat ∧ c0.toNat ≤ 57))) ∧
    (∀ (chatId name : String), (∀ c ∈ name.data, c.toNat < 128) →
      ∃ l : List Char, session_name_for_group chatId (some name) = "group-" ++ ⟨l⟩ ∧
        l.all isGroupChar = true ∧ l.length ≤ 20) ∧
    (∀ chatId : String,
      session_name_for_group chatId none = "group-" ++ ⟨chatId.data.take 12⟩) := by
  refine ⟨?_, ?_, fun _ => rfl⟩
  · intro name hall hhead
    constructor
    · rw [List.all_eq_true]
      intro x hx
      simp only [session_name_for_contact, toLowerStr, List.map_map, List.mem_map] at hx
      obtain ⟨c, hc, rfl⟩ := hx
      exact kebabChar_of_allowed c (hall c hc)
    · intro c0 hc0
      simp only [session_name_for_contact, toLowerStr, List.map_map, List.head?_map] at hc0
      cases hh : name.data.head? with
      | none => rw [hh] at hc0; simp at hc0
      | some c =>
        rw [hh] at hc0
        have hc0' : (if lowerChar c = ' ' then '-' else lowerChar c) = c0 :=
          Option.some.inj (by simpa using hc0)
        rw [← hc0']
        exact headChar_of_alnum c (hhead c hh)
  · intro chatId name _
    refine ⟨_, rfl, ?_, List.length_take_le _ _⟩
    rw [List.all_eq_true]
    intro x hx
    have hx' := List.mem_of_mem_take hx
    simp only [toLowerStr, List.map_map, List.mem_map] at hx'
    obtain ⟨c, _, rfl⟩ := hx'
    exact groupChar_of_mapped c

/-- Witness for C7 at the names used by the repository's own tests. -/
theorem session_names_wellformed_witness :
    (session_name_for_contact "Jane Doe").data.all isKebabChar = true ∧
    (∃ l : List Char,
      session_name_for_group "abc123def456" (some "Family Chat") = "group-" ++ ⟨l⟩ ∧
      l.all isGroupChar = true ∧ l.length ≤ 20) ∧
    session_name_for_group "abc123def456789012345" none
      = "group-" ++ ⟨"abc123def456789012345".data.take 12⟩ :=
  ⟨(session_names_wellformed.1 "Jane Doe" (by decide) (by decide)).1,
   session_names_wellformed.2.1 "abc123def456" "Family Chat" (by decide),
   session_names_wellformed.2.2 "abc123def456789012345"⟩

-- ===========================================================================
-- main.rs: wrap_sms, and the spec §6 template
-- ===========================================================================

theorem string_data_append (a b : String) : (a ++ b).data = a.data ++ b.data := rfl

theorem string_eq_of_data (s t : String) (h : s.data = t.data) : s = t := by
  cases s; cases t; exact congrArg String.mk h

/-- `wrap_sms` from main.rs (lines 998-1022): the raw-string format literal
starts with a newline and ends with one; the reply-context line is inserted
right after the Chat ID when `reply_to` is given. -/
def wrap_sms (prompt contactName tier chatId : String) (replyTo : Option String) : String :=
  "\n---SMS FROM " ++ contactName ++ " (" ++ tier ++ ")---\nChat ID: " ++ chatId ++
  (if replyTo.isSome then "\n[Reply context not yet implemented in Rust version]" else "") ++
  "\n" ++ prompt ++
  "\n---END SMS---\n**Important:** You are in a text message session. Communicate back to the user with ~/code/sms-cli/send-sms \"" ++
  chatId ++ "\" \"message\"\n"

/-- Modelled from the spec (§6, Injected SMS template): the exact template
block, with `<sms-send-cli>` instantiated to the configured
`~/code/sms-cli/send-sms` path; `replyLine`, when present, goes on its own
line between the `Chat ID:` line and the body. -/
def smsTemplateSpec (contactName tier chatId body : String)
    (replyLine : Option String) : String :=
  "---SMS FROM " ++ contactName ++ " (" ++ tier ++ ")---" ++ "\n" ++
  "Chat ID: " ++ chatId ++ "\n" ++
  (match replyLine with | some l => l ++ "\n" | none => "") ++
  body ++ "\n" ++
  "---END SMS---" ++ "\n" ++
  "**Important:** You are in a text message session. Communicate back to the user with ~/code/sms-cli/send-sms \"" ++
  chatId ++ "\" \"message\""

-- ===========================================================================
-- Theorem C8 (corrected): the injected SMS text vs the §6 template
-- ===========================================================================

/-- C8 counterexample: the injected text does not begin with the
`---SMS FROM ...` line; its first character is a newline. -/
theorem wrap_sms_counterexample :
    (wrap_sms "Hello" "Jane Doe" "admin" "+16175551234" none).data.head? = some '\n' ∧
    ("---SMS FROM Jane Doe (admin)---".data.isPrefixOf
      (wrap_sms "Hello" "Jane Doe" "admin" "+16175551234" none).data) = false := by
  constructor
  · decide
  · decide

/-- C8 (amended): the injected text is a newline, then exactly the §6
template, then a trailing newline; and the reply-context line the code
inserts reads `[Reply context not yet implemented in Rust version]` rather
than the spec's `[Reply context not yet implemented]`. -/
theorem wrap_sms_matches_template (prompt contactName tier chatId : String) :
    wrap_sms prompt contactName tier chatId none
      = "\n" ++ smsTemplateSpec contactName tier chatId prompt none ++ "\n" ∧
    ∀ rt : String, wrap_sms prompt contactName tier chatId (some rt)
      = "\n" ++ smsTemplateSpec contactName tier chatId prompt
          (some "[Reply context not yet implemented in Rust version]") ++ "\n" := by
  constructor
  · apply string_eq_of_data
    simp only [wrap_sms, smsTemplateSpec, Option.isSome_none, if_neg,
      string_data_append, List.append_assoc]
    rfl
  · intro rt
    apply string_eq_of_data
    simp only [wrap_sms, smsTemplateSpec, Option.isSome_some, if_pos,
      string_data_append, List.append_assoc]
    rfl

-- ===========================================================================
-- health.rs: the health classifier
-- ===========================================================================

/-- The regex character class `[:\s]` (resp. the `\s` part), restricted to the
ASCII whitespace characters; the first API-error pattern only. -/
def isSpaceRegex (c : Char) : Bool :=
  decide (c = ' ' ∨ c = '\t' ∨ c = '\n' ∨ c = '\r' ∨ c.toNat = 11 ∨ c.toNat = 12)

/-- Contiguous-subsequence test: does `needle` occur inside the list? -/
def containsSub (needle : List Char) : List Char → Bool
  | [] => needle.isEmpty
  | c :: t => needle.isPrefixOf (c :: t) || containsSub needle t

/-- `str::contains` for literal patterns. -/
def strContains (hay needle : String) : Bool := containsSub needle.data hay.data

/-- Three consecutive decimal digits (`(\d{3})`). -/
def threeDigits : List Char → Bool
  | a :: b :: c :: _ => a.isDigit && b.isDigit && c.isDigit
  | _ => false

/-- Does `API Error[:\s]\(?(\d{3})` match at the head of the list? -/
def apiError1At (l : List Char) : Bool :=
  "API Error".data.isPrefixOf l &&
  (match l.drop 9 with
   | [] => false
   | c :: rest =>
     (decide (c = ':') || isSpaceRegex c) &&
     (threeDigits rest ||
      (match rest with
       | '(' :: rest2 => threeDigits rest2
       | _ => false)))

/-- Does `API Error[:\s]\(?(\d{3})` match anywhere in the list? -/
def matchesApiError1 : List Char → Bool
  | [] => false
  | c :: t => apiError1At (c :: t) || matchesApiError1 t

/-- The match vector of the 5-pattern `API_ERROR_PATTERNS` RegexSet
(health.rs lines 37-46). -/
def apiErrorMatches (content : String) : List Bool :=
  [matchesApiError1 content.data,
   strContains content "overloaded_error",
   strContains content "rate_limit_error",
   strContains content "authentication_error",
   strContains content "api_error"]

/-- `RegexSet::matches(..).iter().count()`: the number of distinct patterns
that match (each pattern contributes at most 1). -/
def apiErrorCount (content : String) : Nat :=
  (apiErrorMatches content).count true

/-- `FATAL_PATTERNS` (health.rs lines 49-86), checked in order; the first
match gives its label.  `(?i)` patterns search the lowercased content;
alternations are spelled out. -/
def fatalCheck (content : String) : Option String :=
  if strContains content "Traceback (most recent call last)" then some "python_traceback"
  else if strContains (toLowerStr content) "fatal" then some "fatal"
  else if strContains content "panic:" then some "panic"
  else if strContains content "has crashed" || strContains content "session crashed" then
    some "crashed"
  else if strContains content "Segmentation fault" then some "segfault"
  else if strContains content "killed by signal" then some "killed"
  else if strContains content "tool use concurrency" then some "tool_concurrency"
  else if strContains content "Run /rewind to recover" then some "needs_rewind"
  else if strContains content "ENOMEM" || strContains content "out of memory" then some "oom"
  else if strContains (toLowerStr content) "connection refused" then some "connection_refused"
  else none

/-- ASCII fragment of `str::trim`. -/
def rustTrim (s : String) : String :=
  ⟨((s.data.dropWhile isSpaceRegex).reverse.dropWhile isSpaceRegex).reverse⟩

/-- `SHELL_PROMPTS` (health.rs line 89). -/
def SHELL_PROMPTS : List Char := ['$', '%', '>', '#']

/-- Does the trimmed content end in a shell-prompt character? -/
def endsWithPrompt (content : String) : Bool :=
  match (rustTrim content).data.getLast? with
  | some c => SHELL_PROMPTS.contains c
  | none => false

/-- `UnhealthyReason` from health.rs. -/
inductive UnhealthyReason where
  | sessionMissing
  | apiErrorsPersistent
  | fatalError (pattern : String)
  | claudeNotRunning
  deriving Repr, DecidableEq

/-- `HealthStatus` from health.rs. -/
inductive HealthStatus where
  | healthy
  | unhealthy (reason : UnhealthyReason)
  deriving Repr, DecidableEq

/-- `check_session_content` (health.rs lines 92-117): API-error count first,
then the fatal patterns in order, then the shell-prompt check (on trimmed
content, with `claude` searched case-insensitively in the whole block). -/
def check_session_content (content : String) : HealthStatus :=
  if 3 ≤ apiErrorCount content then .unhealthy .apiErrorsPersistent
  else
    match fatalCheck content with
    | some name => .unhealthy (.fatalError name)
    | none =>
      if endsWithPrompt content && !(strContains (toLowerStr content) "claude") then
        .unhealthy .claudeNotRunning
      else .healthy

-- ===========================================================================
-- Theorem C5: the health classifier
-- ===========================================================================

/-- C5: `ApiErrorsPersistent` is returned exactly when at least 3 of the 5
API-error patterns match (each counted once, taking priority over the fatal
patterns); and a block with a single matching API-error pattern, no fatal
pattern, and whose trimmed content does not end in a shell prompt is
Healthy. -/
theorem check_session_content_spec (content : String) :
    (check_session_content content = .unhealthy .apiErrorsPersistent ↔
      3 ≤ apiErrorCount content) ∧
    (apiErrorCount content = 1 → fatalCheck content = none →
      endsWithPrompt content = false → check_session_content content = .healthy) := by
  constructor
  · constructor
    · intro h
      unfold check_session_content at h
      by_cases h3 : 3 ≤ apiErrorCount content
      · exact h3
      · rw [if_neg h3] at h
        cases hf : fatalCheck content with
        | some n => rw [hf] at h; simp at h
        | none => rw [hf] at h; split_ifs at h <;> simp_all
    · intro h3
      unfold check_session_content
      rw [if_pos h3]
  · intro h1 hf hp
    unfold check_session_content
    rw [if_neg (by omega), hf]
    simp [hp]

/-- Witness for C5: a single-pattern block is Healthy; a four-pattern block
is ApiErrorsPersistent. -/
theorem check_session_content_spec_witness :
    check_session_content "overloaded_error happened, claude retrying" = .healthy ∧
    check_session_content
      "API Error (529 overloaded)\noverloaded_error\nrate_limit_error\napi_error"
      = .unhealthy .apiErrorsPersistent :=
  ⟨(check_session_content_spec _).2 (by decide) (by decide) (by decide),
   (check_session_content_spec _).1.mpr (by decide)⟩

-- ===========================================================================
-- Theorem C2 (corrected): the stored tier is verbatim, not lowercased
-- ===========================================================================

theorem lookupA_insertA_cases {α : Type} (l : List (String × α)) (k0 : String) (v : α)
    (k : String) (ct : α) (h : lookupA (insertA l k0 v) k = some ct) :
    ct = v ∨ lookupA l k = some ct := by
  rw [lookupA_insertA] at h
  split_ifs at h
  · exact Or.inl (Option.some.inj h).symm
  · exact Or.inr h

theorem loadStep_lookup (cache : List (String × Contact)) (r : RawContact)
    (k : String) (ct : Contact) (h : lookupA (loadStep cache r) k = some ct) :
    ct = contactOfJson r ∨ lookupA cache k = some ct := by
  simp only [loadStep] at h
  cases hph : (contactOfJson r).phone with
  | some p =>
    cases hem : (contactOfJson r).email with
    | some e =>
      simp only [hph, hem] at h
      rcases lookupA_insertA_cases _ _ _ _ _ h with h | h
      · exact Or.inl h
      rcases lookupA_insertA_cases _ _ _ _ _ h with h | h
      · exact Or.inl h
      rcases lookupA_insertA_cases _ _ _ _ _ h with h | h
      · exact Or.inl h
      · exact Or.inr h
    | none =>
      simp only [hph, hem] at h
      rcases lookupA_insertA_cases _ _ _ _ _ h with h | h
      · exact Or.inl h
      rcases lookupA_insertA_cases _ _ _ _ _ h with h | h
      · exact Or.inl h
      · exact Or.inr h
  | none =>
    cases hem : (contactOfJson r).email with
    | some e =>
      simp only [hph, hem] at h
      rcases lookupA_insertA_cases _ _ _ _ _ h with h | h
      · exact Or.inl h
      rcases lookupA_insertA_cases _ _ _ _ _ h with h | h
      · exact Or.inl h
      · exact Or.inr h
    | none =>
      simp only [hph, hem] at h
      rcases lookupA_insertA_cases _ _ _ _ _ h with h | h
      · exact Or.inl h
      · exact Or.inr h

theorem loadCache_values (raws : List RawContact) (k : String) (ct : Contact)
    (h : lookupA (loadCache raws) k = some ct) :
    ∃ raw ∈ raws, ct = contactOfJson raw := by
  suffices aux : ∀ (rs : List RawContact) (acc : List (String × Contact))
      (k : String) (ct : Contact), lookupA (rs.foldl loadStep acc) k = some ct →
      (∃ raw ∈ rs, ct = contactOfJson raw) ∨ lookupA acc k = some ct by
    rcases aux raws [] k ct h with h' | h'
    · exact h'
    · simp [lookupA] at h'
  intro rs
  induction rs with
  | nil => intro acc k ct h; exact Or.inr h
  | cons r rs' ih =>
    intro acc k ct h
    rw [List.foldl_cons] at h
    rcases ih (loadStep acc r) k ct h with h' | h'
    · obtain ⟨raw, hm, he⟩ := h'
      exact Or.inl ⟨raw, List.mem_cons_of_mem _ hm, he⟩
    · rcases loadStep_lookup acc r k ct h' with h'' | h''
      · exact Or.inl ⟨r, List.mem_cons_self _ _, h''⟩
      · exact Or.inr h''

/-- A JSON contact whose tier field is capitalized. -/
def c2raw : RawContact :=
  { name := some "Test", phone := some "+16175551234"
    email := none, tier := some "Admin" }

/-- C2 counterexample: a JSON contact with tier `"Admin"` is stored with tier
`"Admin"`, not the lowercase `"admin"` (contacts.rs line 60 does not
lowercase the tier). -/
theorem contact_tier_not_lowercased :
    lookupA (loadCache [c2raw]) "+16175551234" = some (contactOfJson c2raw) ∧
    (contactOfJson c2raw).tier = "Admin" ∧
    toLowerStr "Admin" = "admin" ∧
    (contactOfJson c2raw).tier ≠ "admin" := by
  refine ⟨by decide, by decide, by decide, by decide⟩

/-- C2 (amended): every contact record in the loaded cache stores the tier
field of its JSON element verbatim (a missing tier becoming `"unknown"`);
no lowercasing is applied. -/
theorem contact_tier_verbatim (raws : List RawContact) (k : String) (ct : Contact)
    (h : lookupA (loadCache raws) k = some ct) :
    ∃ raw ∈ raws, ct.tier = raw.tier.getD "unknown" := by
  obtain ⟨raw, hm, rfl⟩ := loadCache_values raws k ct h
  exact ⟨raw, hm, rfl⟩

/-- Witness for C2 at a concrete one-element contact list. -/
theorem contact_tier_verbatim_witness :
    ∃ raw ∈ [c2raw], (contactOfJson c2raw).tier = raw.tier.getD "unknown" :=
  contact_tier_verbatim [c2raw] "+16175551234" (contactOfJson c2raw) (by decide)

-- ===========================================================================
-- reminder.rs: the reminder scheduler
-- ===========================================================================

/-- A registered reminder (reminder.rs `Reminder`).  The compiled
`cron::Schedule` is modelled by the one operation `check_due` performs on
it: `schedule.after(&t).next()`, the least firing instant strictly after
`t`, if any. -/
structure ReminderM where
  cronExpr : String
  nextAfter : Int → Option Int
  prompt : String

/-- `ReminderManager` state: `reminders` (chat_id → reminder list) and
`last_fired` (`"chat:idx"` → time). -/
structure RemState where
  reminders : List (String × List ReminderM)
  lastFired : List (String × Int)

/-- The `last_fired` key `format!("{}:{}", chat_id, idx)`. -/
def remKey (chatId : String) (idx : Nat) : String := chatId ++ ":" ++ toString idx

/-- The due pairs contributed by one `(chat_id, reminders)` entry
(reminder.rs lines 94-113): a reminder is due when its schedule has a
firing instant after `last_fired` (default epoch 0) that is ≤ now. -/
def dueOfEntry (s : RemState) (now : Int) (p : String × List ReminderM) :
    List (String × String) :=
  p.2.enum.filterMap (fun q =>
    let last := (lookupA s.lastFired (remKey p.1 q.1)).getD 0
    match q.2.nextAfter last with
    | some nxt => if nxt ≤ now then some (p.1, q.2.prompt) else none
    | none => none)

/-- The collected due list of `check_due`. -/
def checkDueList (s : RemState) (now : Int) : List (String × String) :=
  s.reminders.foldl (fun acc p => acc ++ dueOfEntry s now p) []

/-- One iteration of the `last_fired` update loop (reminder.rs lines
116-121): every reminder index of a due chat_id gets `last_fired := now`. -/
def firedStep (s : RemState) (now : Int) (lf : List (String × Int))
    (p : String × String) : List (String × Int) :=
  match lookupA s.reminders p.1 with
  | some rs => (List.range rs.length).foldl
      (fun lf2 idx => insertA lf2 (remKey p.1 idx) now) lf
  | none => lf

/-- The updated `last_fired` map after a `check_due` call. -/
def updateFired (s : RemState) (due : List (String × String)) (now : Int) :
    List (String × Int) :=
  due.foldl (firedStep s now) s.lastFired

/-- `ReminderManager::check_due` (reminder.rs lines 91-124). -/
def checkDue (s : RemState) (now : Int) : RemState × List (String × String) :=
  let due := checkDueList s now
  ({ s with lastFired := updateFired s due now }, due)

/-- The reminder registered under `(chat_id, idx)`. -/
def lookupRem (s : RemState) (cid : String) (idx : Nat) : Option ReminderM :=
  (lookupA s.reminders cid).bind (fun rs => rs[idx]?)

/-- The `last_fired` value consulted for `(chat_id, idx)` (epoch default). -/
def remLast (s : RemState) (cid : String) (idx : Nat) : Int :=
  (lookupA s.lastFired (remKey cid idx)).getD 0

/-- The schedule instant that would trigger `(chat_id, idx)` now. -/
def fireInstant (s : RemState) (cid : String) (idx : Nat) : Option Int :=
  (lookupRem s cid idx).bind (fun r => r.nextAfter (remLast s cid idx))

/-- Does reminder `(chat_id, idx)` fire in a `check_due(now)` call on state
`s`? -/
def remFires (s : RemState) (now : Int) (cid : String) (idx : Nat) : Bool :=
  match fireInstant s cid idx with
  | some f => decide (f ≤ now)
  | none => false

/-- The state after a `check_due` call (the returned list dropped). -/
def applyCheck (s : RemState) (t : Int) : RemState := (checkDue s t).1

/-- The state after a sequence of `check_due` calls. -/
def runChecks (s : RemState) (ts : List Int) : RemState := ts.foldl applyCheck s

-- ===========================================================================
-- Theorem C6: each firing instant produces the prompt at most once
-- ===========================================================================

theorem foldl_append_flatten {α β : Type} (g : α → List β) (l : List α) :
    ∀ init : List β,
      l.foldl (fun acc p => acc ++ g p) init = init ++ (l.map g).flatten := by
  induction l with
  | nil => intro init; simp
  | cons a t ih => intro init; simp [ih, List.append_assoc]

theorem lookupA_mem {α : Type} (l : List (String × α)) (k : String) (v : α)
    (h : lookupA l k = some v) : (k, v) ∈ l := by
  induction l with
  | nil => simp [lookupA] at h
  | cons p t ih =>
    obtain ⟨k0, v0⟩ := p
    by_cases hk : k0 = k
    · subst hk
      simp [lookupA] at h
      simp [h]
    · simp [lookupA, hk] at h
      exact List.mem_cons_of_mem _ (ih h)

theorem remFires_elim (s : RemState) (now : Int) (cid : String) (idx : Nat)
    (h : remFires s now cid idx = true) :
    ∃ rs r f, lookupA s.reminders cid = some rs ∧ rs[idx]? = some r ∧
      r.nextAfter (remLast s cid idx) = some f ∧ f ≤ now := by
  unfold remFires fireInstant lookupRem at h
  cases hrs : lookupA s.reminders cid with
  | none => rw [hrs] at h; simp at h
  | some rs =>
    rw [hrs] at h
    simp only [Option.some_bind] at h
    cases hr : rs[idx]? with
    | none => rw [hr] at h; simp at h
    | some r =>
      rw [hr] at h
      simp only [Option.some_bind] at h
      cases hn : r.nextAfter (remLast s cid idx) with
      | none => rw [hn] at h; simp at h
      | some f =>
        rw [hn] at h
        exact ⟨rs, r, f, rfl, hr, hn, by simpa using h⟩

theorem mem_checkDueList (s : RemState) (now : Int) (cid : String) (idx : Nat)
    (rs : List ReminderM) (r : ReminderM) (f : Int)
    (hrs : lookupA s.reminders cid = some rs) (hr : rs[idx]? = some r)
    (hn : r.nextAfter (remLast s cid idx) = some f) (hle : f ≤ now) :
    (cid, r.prompt) ∈ checkDueList s now := by
  unfold checkDueList
  rw [foldl_append_flatten]
  simp only [List.nil_append, List.mem_flatten, List.mem_map]
  refine ⟨dueOfEntry s now (cid, rs), ⟨(cid, rs), lookupA_mem _ _ _ hrs, rfl⟩, ?_⟩
  unfold dueOfEntry
  rw [List.mem_filterMap]
  refine ⟨(idx, r), List.mem_enum_iff_getElem?.mpr hr, ?_⟩
  simp only
  rw [show ((lookupA s.lastFired (remKey cid idx)).getD 0) = remLast s cid idx from rfl, hn]
  simp [hle]

theorem lookupA_foldl_insert_const {α : Type} (v : α) (ks : List String) :
    ∀ (lf : List (String × α)) (k : String),
      lookupA (ks.foldl (fun l kk => insertA l kk v) lf) k = some v ∨
      lookupA (ks.foldl (fun l kk => insertA l kk v) lf) k = lookupA lf k := by
  induction ks with
  | nil => intro lf k; exact Or.inr rfl
  | cons a t ih =>
    intro lf k
    rcases ih (insertA lf a v) k with h | h
    · exact Or.inl h
    · rw [List.foldl_cons, h, lookupA_insertA]
      split_ifs
      · exact Or.inl rfl
      · exact Or.inr rfl

theorem lookupA_foldl_insert_const_mem {α : Type} (v : α) (ks : List String) :
    ∀ (lf : List (String × α)) (k : String), k ∈ ks →
      lookupA (ks.foldl (fun l kk => insertA l kk v) lf) k = some v := by
  induction ks with
  | nil => intro lf k hk; cases hk
  | cons a t ih =>
    intro lf k hk
    rcases List.mem_cons.mp hk with rfl | hk'
    · rcases lookupA_foldl_insert_const v t (insertA lf k v) k with h | h
      · exact h
      · rw [List.foldl_cons, h, lookupA_insertA, if_pos rfl]
    · exact ih (insertA lf a v) k hk'

theorem firedStep_lookup_or (s : RemState) (now : Int) (lf : List (String × Int))
    (p : String × String) (k : String) :
    lookupA (firedStep s now lf p) k = some now ∨
    lookupA (firedStep s now lf p) k = lookupA lf k := by
  unfold firedStep
  cases lookupA s.reminders p.1 with
  | none => exact Or.inr rfl
  | some rs =>
    simp only
    rw [← List.foldl_map (remKey p.1) (fun l kk => insertA l kk now)]
    exact lookupA_foldl_insert_const now _ lf k

theorem firedStep_lookup_mem (s : RemState) (now : Int) (lf : List (String × Int))
    (cid : String) (pr : String) (idx : Nat) (rs : List ReminderM)
    (hrs : lookupA s.reminders cid = some rs) (hidx : idx < rs.length) :
    lookupA (firedStep s now lf (cid, pr)) (remKey cid idx) = some now := by
  unfold firedStep
  simp only [hrs]
  rw [← List.foldl_map (remKey cid) (fun l kk => insertA l kk now)]
  exact lookupA_foldl_insert_const_mem now _ lf _
    (List.mem_map_of_mem _ (List.mem_range.mpr hidx))

theorem updateFired_fold_or (s : RemState) (now : Int) (k : String) :
    ∀ (due : List (String × String)) (lf : List (String × Int)),
      lookupA (due.foldl (firedStep s now) lf) k = some now ∨
      lookupA (due.foldl (firedStep s now) lf) k = lookupA lf k := by
  intro due
  induction due with
  | nil => intro lf; exact Or.inr rfl
  | cons p t ih =>
    intro lf
    rw [List.foldl_cons]
    rcases ih (firedStep s now lf p) with h | h
    · exact Or.inl h
    · rw [h]
      exact firedStep_lookup_or s now lf p k

theorem updateFired_fold_mem (s : RemState) (now : Int) (cid : String) (idx : Nat)
    (rs : List ReminderM) (hrs : lookupA s.reminders cid = some rs)
    (hidx : idx < rs.length) :
    ∀ (due : List (String × String)) (lf : List (String × Int)),
      (∃ pr, (cid, pr) ∈ due) →
      lookupA (due.foldl (firedStep s now) lf) (remKey cid idx) = some now := by
  intro due
  induction due with
  | nil => intro lf ⟨pr, hpr⟩; cases hpr
  | cons p t ih =>
    intro lf ⟨pr, hpr⟩
    rw [List.foldl_cons]
    rcases List.mem_cons.mp hpr with rfl | hpr'
    · rcases updateFired_fold_or s now (remKey cid idx) t
        (firedStep s now lf (cid, pr)) with h | h
      · exact h
      · rw [h]
        exact firedStep_lookup_mem s now lf cid pr idx rs hrs hidx
    · exact ih (firedStep s now lf p) ⟨pr, hpr'⟩

theorem reminders_applyCheck (s : RemState) (t : Int) :
    (applyCheck s t).reminders = s.reminders := rfl

theorem reminders_runChecks (ts : List Int) :
    ∀ s : RemState, (runChecks s ts).reminders = s.reminders := by
  induction ts with
  | nil => intro s; rfl
  | cons a t ih => intro s; exact ih (applyCheck s a)

theorem remLast_applyCheck_of_fires (s : RemState) (t : Int) (cid : String)
    (idx : Nat) (h : remFires s t cid idx = true) :
    remLast (applyCheck s t) cid idx = t := by
  obtain ⟨rs, r, f, hrs, hr, hn, hle⟩ := remFires_elim s t cid idx h
  have hmem : (cid, r.prompt) ∈ checkDueList s t :=
    mem_checkDueList s t cid idx rs r f hrs hr hn hle
  have hidx : idx < rs.length := by
    rcases List.getElem?_eq_some.mp hr with ⟨hlt, _⟩
    exact hlt
  unfold remLast applyCheck checkDue updateFired
  simp only
  rw [updateFired_fold_mem s t cid idx rs hrs hidx (checkDueList s t)
    s.lastFired ⟨r.prompt, hmem⟩]
  rfl

theorem remLast_applyCheck_or (s : RemState) (x : Int) (cid : String) (idx : Nat) :
    remLast (applyCheck s x) cid idx = x ∨
    remLast (applyCheck s x) cid idx = remLast s cid idx := by
  unfold remLast applyCheck checkDue updateFired
  simp only
  rcases updateFired_fold_or s x (remKey cid idx) (checkDueList s x) s.lastFired
    with h | h
  · rw [h]; exact Or.inl rfl
  · rw [h]; exact Or.inr rfl

theorem remLast_runChecks_ge (cid : String) (idx : Nat) (t : Int) (ts : List Int) :
    ∀ s : RemState, t ≤ remLast s cid idx → (∀ x ∈ ts, t ≤ x) →
      t ≤ remLast (runChecks s ts) cid idx := by
  induction ts with
  | nil => intro s hs _; exact hs
  | cons a tl ih =>
    intro s hs hts
    have ha : t ≤ a := hts a (List.mem_cons_self _ _)
    have hstep : t ≤ remLast (applyCheck s a) cid idx := by
      rcases remLast_applyCheck_or s a cid idx with h | h
      · rw [h]; exact ha
      · rw [h]; exact hs
    exact ih (applyCheck s a) hstep (fun x hx => hts x (List.mem_cons_of_mem _ hx))

theorem reminder_fire_instants (s1 : RemState) (cid : String) (idx : Nat)
    (r : ReminderM) (t : Int) (ts2 : List Int) (u : Int)
    (hr : lookupRem s1 cid idx = some r)
    (hstrict : ∀ a b : Int, r.nextAfter a = some b → a < b)
    (hf1 : remFires s1 t cid idx = true)
    (hts : ∀ x ∈ ts2, t ≤ x)
    (hf2 : remFires (runChecks (applyCheck s1 t) ts2) u cid idx = true) :
    ∃ f1 f2, fireInstant s1 cid idx = some f1 ∧
      fireInstant (runChecks (applyCheck s1 t) ts2) cid idx = some f2 ∧
      f1 ≤ t ∧ f1 < f2 := by
  obtain ⟨rs, ra, f1, hrs, hra, hn1, hle1⟩ := remFires_elim s1 t cid idx hf1
  have hr1 : lookupRem s1 cid idx = some ra := by
    unfold lookupRem
    rw [hrs]
    simpa using hra
  have hra_eq : ra = r := Option.some.inj (hr1.symm.trans hr)
  subst hra_eq
  obtain ⟨rs2, rb, f2, hrs2, hrb, hn2, hle2⟩ :=
    remFires_elim (runChecks (applyCheck s1 t) ts2) u cid idx hf2
  -- the reminders map never changes, so the second fire sees the same reminder
  have hrem_eq : (runChecks (applyCheck s1 t) ts2).reminders = s1.reminders := by
    rw [reminders_runChecks, reminders_applyCheck]
  rw [hrem_eq] at hrs2
  have hrs2' : rs2 = rs := Option.some.inj (hrs2.symm.trans hrs)
  subst hrs2'
  have hrb' : rb = ra := Option.some.inj (hrb.symm.trans hra)
  subst hrb'
  -- last_fired for the key is t right after the first fire and only grows
  have hlast1 : remLast (applyCheck s1 t) cid idx = t :=
    remLast_applyCheck_of_fires s1 t cid idx hf1
  have hlast2 : t ≤ remLast (runChecks (applyCheck s1 t) ts2) cid idx :=
    remLast_runChecks_ge cid idx t ts2 (applyCheck s1 t) (le_of_eq hlast1.symm) hts
  have hf2gt : remLast (runChecks (applyCheck s1 t) ts2) cid idx < f2 :=
    hstrict _ _ hn2
  refine ⟨f1, f2, ?_, ?_, hle1, by omega⟩
  · unfold fireInstant
    rw [hr1]
    simpa using hn1
  · unfold fireInstant lookupRem
    rw [hrem_eq, hrs]
    simp only [Option.some_bind]
    rw [hra]
    simp only [Option.some_bind]
    exact hn2

/-- The per-minute schedule `* * * * *` (as the cron crate exposes it to
`check_due`): the least whole minute strictly after `t`. -/
def everyMinute : ReminderM :=
  { cronExpr := "* * * * *"
    nextAfter := fun t => some (60 * (t / 60) + 60)
    prompt := "Ping" }

/-- A fresh manager with one per-minute reminder registered for `chat1`. -/
def demoRem : RemState :=
  { reminders := [("chat1", [everyMinute])], lastFired := [] }

/-- C6: for any registered reminder, across a first firing `check_due(t)`
and any weakly later sequence of calls, a second firing consumes a strictly
later schedule instant — so each concrete firing instant produces the prompt
at most once; concretely, with a per-minute schedule, `check_due(600)`
returns the pair, an immediate repeat returns nothing, and
`check_due(660)` returns the pair again. -/
theorem reminder_prompt_once_per_instant :
    (∀ (s1 : RemState) (cid : String) (idx : Nat) (r : ReminderM) (t : Int)
        (ts2 : List Int) (u : Int),
      lookupRem s1 cid idx = some r →
      (∀ a b : Int, r.nextAfter a = some b → a < b) →
      remFires s1 t cid idx = true →
      (∀ x ∈ ts2, t ≤ x) →
      remFires (runChecks (applyCheck s1 t) ts2) u cid idx = true →
      ∃ f1 f2, fireInstant s1 cid idx = some f1 ∧
        fireInstant (runChecks (applyCheck s1 t) ts2) cid idx = some f2 ∧
        f1 ≤ t ∧ f1 < f2) ∧
    ((checkDue demoRem 600).2 = [("chat1", "Ping")] ∧
     (checkDue (checkDue demoRem 600).1 600).2 = [] ∧
     (checkDue (checkDue demoRem 600).1 660).2 = [("chat1", "Ping")]) := by
  refine ⟨reminder_fire_instants, ?_, ?_, ?_⟩
  · decide
  · decide
  · decide

/-- Witness for C6: the demo reminder fires at `check_due(600)` and again at
`check_due(660)`, and the two consumed schedule instants differ. -/
theorem reminder_prompt_once_per_instant_witness :
    ∃ f1 f2, fireInstant demoRem "chat1" 0 = some f1 ∧
      fireInstant (runChecks (applyCheck demoRem 600) []) "chat1" 0 = some f2 ∧
      f1 ≤ 600 ∧ f1 < f2 :=
  reminder_prompt_once_per_instant.1 demoRem "chat1" 0 everyMinute 600 [] 660
    (by rfl)
    (fun a b h => by
      have hb : b = 60 * (a / 60) + 60 := (Option.some.inj h).symm
      omega)
    (by decide)
    (by intro x hx; cases hx)
    (by decide)

-- ===========================================================================
-- messages.rs data model, and the main.rs daemon loop (per-message step)
-- ===========================================================================

/-- `Attachment` from messages.rs. -/
structure Attachment where
  path : String
  mimeType : String
  name : String
  size : Int
  deriving Repr, DecidableEq

/-- `Message` from messages.rs. -/
structure Message where
  rowid : Int
  timestamp : Int
  sender : String
  text : String
  chatId : String
  isFromMe : Bool
  isGroup : Bool
  groupName : Option String
  attachments : List Attachment
  isAudioMessage : Bool
  audioTranscription : Option String
  threadOriginatorGuid : Option String
  deriving Repr, DecidableEq

/-- The environment a daemon-loop tick runs against: the loaded contacts
cache and the outcomes the external world (tmux, filesystem, clock) would
give to each call. -/
structure LoopEnv where
  cache : List (String × Contact)
  sessionExists : String → Bool
  createOk : String → Bool
  injectOk : String → Bool
  saveResult : Except String Unit
  transcriptsDir : String
  now : Int

/-- The loop-owned mutable state relevant to one message: the registry map
and the local `last_rowid` cursor. -/
structure LoopState where
  registry : Registry
  lastRowid : Int

/-- The externally visible commands the per-message step can issue. -/
inductive Effect where
  | ensureDir (dir : String)
  | createSession (name dir tier : String)
  | injectText (name text : String)
  deriving Repr, DecidableEq

/-- Sender resolution of `cmd_run` (main.rs lines 821-843): groups look up
the sender phone, individuals the chat_id; only blessed tiers pass. -/
def senderInfo (env : LoopEnv) (msg : Message) : Option (String × String) :=
  if msg.isGroup then
    match lookup_phone env.cache msg.sender with
    | some contact =>
        if is_blessed_tier contact.tier then some (contact.name, contact.tier) else none
    | none => none
  else
    match lookup_phone env.cache msg.chatId with
    | some contact =>
        if is_blessed_tier contact.tier then some (contact.name, contact.tier) else none
    | none => none

/-- The wrap-and-inject tail of the per-message step (main.rs lines
895-904): inject the wrapped SMS; on success update `last_message_time`;
always advance the cursor. -/
def injectPhase (env : LoopEnv) (st : LoopState) (msg : Message)
    (contactName tier sessionName : String) (eff : List Effect) :
    LoopState × List Effect :=
  let wrapped := wrap_sms msg.text contactName tier msg.chatId none
  let st1 :=
    if env.injectOk sessionName then
      { st with registry :=
          (update_last_message st.registry msg.chatId env.now env.saveResult).1 }
    else st
  ({ st1 with lastRowid := max st1.lastRowid msg.rowid },
   eff ++ [Effect.injectText sessionName wrapped])

/-- The per-message body of the daemon loop (main.rs lines 810-905):
skip own messages, resolve and authorize the sender, derive the session
name, create-and-register a missing session, inject, and advance the local
`last_rowid` cursor in every path. -/
def processMessage (env : LoopEnv) (st : LoopState) (msg : Message) :
    LoopState × List Effect :=
  if msg.isFromMe then
    ({ st with lastRowid := max st.lastRowid msg.rowid }, [])
  else
    match senderInfo env msg with
    | none => ({ st with lastRowid := max st.lastRowid msg.rowid }, [])
    | some (contactName, tier) =>
      let sessionName :=
        if msg.isGroup then session_name_for_group msg.chatId msg.groupName
        else session_name_for_contact contactName
      if env.sessionExists sessionName then
        injectPhase env st msg contactName tier sessionName []
      else
        let dir := env.transcriptsDir ++ "/" ++ sessionName
        if env.createOk sessionName then
          let call : RegCall :=
            { chatId := msg.chatId, sessionName := sessionName, transcriptDir := dir,
              sessionType := if msg.isGroup then "group" else "individual",
              contactName := some contactName, displayName := msg.groupName,
              tier := some tier, participants := none, now := env.now }
          let st1 := { st with registry := register st.registry call }
          injectPhase env st1 msg contactName tier sessionName
            [Effect.ensureDir dir, Effect.createSession sessionName dir tier]
        else
          ({ st with lastRowid := max st.lastRowid msg.rowid },
           [Effect.ensureDir dir, Effect.createSession sessionName dir tier])

-- ===========================================================================
-- Theorem C1: authorization and the unauthorized-sender frame effect
-- ===========================================================================

/-- C1: a tier is authorized iff it equals (case-sensitively) one of admin,
wife, family, favorite; and a message whose resolved sender has no contact
record or an unauthorized tier is dropped: no effect is issued, the registry
is untouched, and the cursor still advances to at least the message's
ROWID. -/
theorem unauthorized_message_skipped :
    (∀ tier : String, is_blessed_tier tier = true ↔
      (tier = "admin" ∨ tier = "wife" ∨ tier = "family" ∨ tier = "favorite")) ∧
    (∀ (env : LoopEnv) (st : LoopState) (msg : Message),
      msg.isFromMe = false →
      (lookup_phone env.cache (if msg.isGroup then msg.sender else msg.chatId) = none ∨
       ∃ ct, lookup_phone env.cache (if msg.isGroup then msg.sender else msg.chatId)
          = some ct ∧ is_blessed_tier ct.tier = false) →
      processMessage env st msg
        = ({ st with lastRowid := max st.lastRowid msg.rowid }, []) ∧
      msg.rowid ≤ max st.lastRowid msg.rowid) := by
  constructor
  · intro tier
    simp [is_blessed_tier, BLESSED_TIERS]
  · intro env st msg hme hsender
    have hnone : senderInfo env msg = none := by
      unfold senderInfo
      by_cases hg : msg.isGroup = true
      · rw [if_pos hg]
        rw [if_pos hg] at hsender
        rcases hsender with h | ⟨ct, hct, hbl⟩
        · rw [h]
        · rw [hct]; simp [hbl]
      · rw [if_neg hg]
        rw [if_neg hg] at hsender
        rcases hsender with h | ⟨ct, hct, hbl⟩
        · rw [h]
        · rw [hct]; simp [hbl]
    constructor
    · unfold processMessage
      rw [if_neg (by simp [hme]), hnone]
    · exact le_max_right _ _

/-- A directory contact with the unauthorized tier `work`. -/
def c1contact : Contact :=
  { name := "Work Person", phone := some "+16175551234", email := none, tier := "work" }

/-- A concrete environment, state and message for the C1 witness. -/
def c1env : LoopEnv :=
  { cache := [("+16175551234", c1contact)]
    sessionExists := fun _ => false
    createOk := fun _ => true
    injectOk := fun _ => true
    saveResult := Except.ok ()
    transcriptsDir := "/transcripts"
    now := 0 }

def c1msg : Message :=
  { rowid := 103, timestamp := 0, sender := "+16175551234", text := "hi"
    chatId := "+16175551234", isFromMe := false, isGroup := false
    groupName := none, attachments := [], isAudioMessage := false
    audioTranscription := none, threadOriginatorGuid := none }

def c1st : LoopState := { registry := [], lastRowid := 101 }

/-- Witness for C1: ROWID 103 from a tier-`work` contact is dropped, the
registry stays empty, and the cursor reaches 103. -/
theorem unauthorized_message_skipped_witness :
    processMessage c1env c1st c1msg
      = ({ c1st with lastRowid := max c1st.lastRowid c1msg.rowid }, []) ∧
    c1msg.rowid ≤ max c1st.lastRowid c1msg.rowid :=
  unauthorized_message_skipped.2 c1env c1st c1msg rfl
    (Or.inr ⟨c1contact, by decide, by decide⟩)

-- ===========================================================================
-- messages.rs: blob decoder (C1 of the spec) and the row reader
-- ===========================================================================

/-- ASCII fragment of `char::is_alphabetic` (the Unicode table is outside
the embedding). -/
def asciiAlphabetic (c : Char) : Bool :=
  decide ((65 ≤ c.toNat ∧ c.toNat ≤ 90) ∨ (97 ≤ c.toNat ∧ c.toNat ≤ 122))

/-- A UTF-8 continuation byte. -/
def isContByte (b : Nat) : Bool := decide (128 ≤ b ∧ b ≤ 191)

/-- Strict UTF-8 decoding (`std::str::from_utf8`): rejects overlong forms,
surrogates, and values above U+10FFFF.  Fuel is the list length; every step
consumes at least one byte. -/
def utf8Go : Nat → List Nat → Option (List Char)
  | _, [] => some []
  | 0, _ :: _ => none
  | fuel + 1, b :: rest =>
    if b < 128 then
      (utf8Go fuel rest).map (fun cs => Char.ofNat b :: cs)
    else if 194 ≤ b ∧ b ≤ 223 then
      match rest with
      | b1 :: r =>
        if isContByte b1 then
          (utf8Go fuel r).map (fun cs => Char.ofNat ((b - 192) * 64 + (b1 - 128)) :: cs)
        else none
      | [] => none
    else if 224 ≤ b ∧ b ≤ 239 then
      match rest with
      | b1 :: b2 :: r =>
        if (if b = 224 then 160 ≤ b1 ∧ b1 ≤ 191
            else if b = 237 then 128 ≤ b1 ∧ b1 ≤ 159
            else 128 ≤ b1 ∧ b1 ≤ 191) ∧ isContByte b2 = true then
          (utf8Go fuel r).map
            (fun cs => Char.ofNat ((b - 224) * 4096 + (b1 - 128) * 64 + (b2 - 128)) :: cs)
        else none
      | _ => none
    else if 240 ≤ b ∧ b ≤ 244 then
      match rest with
      | b1 :: b2 :: b3 :: r =>
        if (if b = 240 then 144 ≤ b1 ∧ b1 ≤ 191
            else if b = 244 then 128 ≤ b1 ∧ b1 ≤ 143
            else 128 ≤ b1 ∧ b1 ≤ 191) ∧ isContByte b2 = true ∧ isContByte b3 = true then
          (utf8Go fuel r).map
            (fun cs => Char.ofNat
              ((b - 240) * 262144 + (b1 - 128) * 4096 + (b2 - 128) * 64 + (b3 - 128)) :: cs)
        else none
      | _ => none
    else none

/-- `std::str::from_utf8` on a byte list. -/
def utf8Decode (bytes : List Nat) : Option String :=
  (utf8Go bytes.length bytes).map (fun cs => ⟨cs⟩)

/-- The UTF-8 byte length of one char (for `str::len`, which is in bytes). -/
def charUtf8Len (c : Char) : Nat :=
  if c.toNat < 128 then 1
  else if c.toNat < 2048 then 2
  else if c.toNat < 65536 then 3
  else 4

/-- `str::len` (bytes). -/
def utf8Len (s : String) : Nat := s.data.foldl (fun n c => n + charUtf8Len c) 0

/-- `is_valid_message_text` (messages.rs lines 428-430): non-empty, byte
length > 1, and at least one alphabetic character. -/
def is_valid_message_text (t : String) : Bool :=
  !(t.data.isEmpty) && decide (1 < utf8Len t) && t.data.any asciiAlphabetic

/-- Search helper for `find_subsequence`, carrying the window index. -/
def findSubseqFrom (needle : List Nat) : List Nat → Nat → Option Nat
  | [], i => if needle.isEmpty then some i else none
  | b :: t, i =>
    if needle.isPrefixOf (b :: t) then some i else findSubseqFrom needle t (i + 1)

/-- `find_subsequence` (messages.rs lines 422-426): position of the first
window equal to the needle. -/
def find_subsequence (haystack needle : List Nat) : Option Nat :=
  findSubseqFrom needle haystack 0

/-- The bytes of an ASCII marker string. -/
def strBytes (s : String) : List Nat := s.data.map Char.toNat

/-- Format 1 of `extract_text_after_marker`: `0x2B <1-byte len> <text>`. -/
def textFmt1 (slice : List Nat) : Option String :=
  if 2 < slice.length then
    match slice[1]? with
    | some len =>
      if 0 < len ∧ len < 128 ∧ 2 + len < slice.length then
        match utf8Decode ((slice.drop 2).take len) with
        | some t => if is_valid_message_text t then some t else none
        | none => none
      else none
    | none => none
  else none

/-- Format 2: `0x2B 0x81 <2-byte LE len> <text>`. -/
def textFmt2 (slice : List Nat) : Option String :=
  if 4 < slice.length then
    match slice[1]?, slice[2]?, slice[3]? with
    | some m, some lo, some hi =>
      if m = 129 then
        let len := lo + 256 * hi
        if 0 < len ∧ 4 + len < slice.length then
          match utf8Decode ((slice.drop 4).take len) with
          | some t => if is_valid_message_text t then some t else none
          | none => none
        else none
      else none
    | _, _, _ => none
  else none

/-- Format 3: `0x2B 0x82 <4-byte LE len> <text>` with len < 100000. -/
def textFmt3 (slice : List Nat) : Option String :=
  if 6 < slice.length then
    match slice[1]?, slice[2]?, slice[3]?, slice[4]?, slice[5]? with
    | some m, some a, some b, some c, some d =>
      if m = 130 then
        let len := a + 256 * b + 65536 * c + 16777216 * d
        if 0 < len ∧ len < 100000 ∧ 6 + len < slice.length then
          match utf8Decode ((slice.drop 6).take len) with
          | some t => if is_valid_message_text t then some t else none
          | none => none
        else none
      else none
    | _, _, _, _, _ => none
  else none

/-- One iteration of the `extract_text_after_marker` scan: requires the
`0x2B` prefix byte, then tries the three length encodings in order. -/
def checkTextAt (slice : List Nat) : Option String :=
  match slice with
  | [] => none
  | b0 :: _ =>
    if b0 = 43 then
      match textFmt1 slice with
      | some t => some t
      | none =>
        match textFmt2 slice with
        | some t => some t
        | none => textFmt3 slice
    else none

/-- The scan loop `for i in 0..len.saturating_sub(10)`: apply `f` to each
successive suffix, first success wins. -/
def scanLoop (f : List Nat → Option String) : Nat → List Nat → Option String
  | 0, _ => none
  | n + 1, l =>
    match f l with
    | some t => some t
    | none =>
      match l with
      | [] => none
      | _ :: t => scanLoop f n t

/-- `extract_text_after_marker` (messages.rs lines 371-420). -/
def extract_text_after_marker (data : List Nat) : Option String :=
  scanLoop checkTextAt (data.length - 10) data

/-- One iteration of the audio scan: the `0x81` 2-byte-length form, then the
raw 1-byte-length form; validity is non-empty trimmed text with an
alphabetic character. -/
def checkAudioAt (slice : List Nat) : Option String :=
  let twoByte :=
    if 4 < slice.length then
      match slice[0]?, slice[1]?, slice[2]? with
      | some b0, some lo, some hi =>
        if b0 = 129 then
          let len := lo + 256 * hi
          if 10 < len ∧ len < 5000 ∧ 3 + len < slice.length then
            match utf8Decode ((slice.drop 3).take len) with
            | some t =>
              let cleaned := rustTrim t
              if !(cleaned.data.isEmpty) && cleaned.data.any asciiAlphabetic then
                some cleaned
              else none
            | none => none
          else none
        else none
      | _, _, _ => none
    else none
  match twoByte with
  | some t => some t
  | none =>
    if 2 < slice.length then
      match slice[0]? with
      | some len =>
        if 10 < len ∧ len < 128 ∧ 1 + len < slice.length then
          match utf8Decode ((slice.drop 1).take len) with
          | some t =>
            let cleaned := rustTrim t
            if !(cleaned.data.isEmpty) && cleaned.data.any asciiAlphabetic then
              some cleaned
            else none
          | none => none
        else none
      | none => none
    else none

/-- `extract_audio_transcription` (messages.rs lines 329-369). -/
def extract_audio_transcription (data : List Nat) : Option String :=
  match find_subsequence data (strBytes "IMAudioTranscription") with
  | some pos =>
    let afterMarker := data.drop (pos + (strBytes "IMAudioTranscription").length)
    scanLoop checkAudioAt (afterMarker.length - 10) afterMarker
  | none => none

/-- The value tree the external plist crate yields (`plist::Value`):
strings, dictionaries, arrays, and everything else. -/
inductive PlistValue where
  | str (s : String)
  | dict (entries : List (String × PlistValue))
  | arr (elems : List PlistValue)
  | other

/-- The `$objects` walk of `extract_string_from_plist` (messages.rs lines
443-455): plain strings pass the validity predicate, dictionaries yield
their `NS.string` field unvalidated. -/
def walkObjects : List PlistValue → Option String
  | [] => none
  | PlistValue.str s :: rest =>
    if is_valid_message_text s then some s else walkObjects rest
  | PlistValue.dict inner :: rest =>
    (match lookupA inner "NS.string" with
     | some (PlistValue.str s) => some s
     | _ => walkObjects rest)
  | _ :: rest => walkObjects rest

mutual
/-- `extract_string_from_plist` (messages.rs lines 439-469). -/
def extract_string_from_plist : PlistValue → Option String
  | PlistValue.str s => some s
  | PlistValue.dict d =>
    (match lookupA d "$objects" with
     | some (PlistValue.arr objs) => walkObjects objs
     | _ => none)
  | PlistValue.arr elems => firstFromArray elems
  | PlistValue.other => none

/-- The array case: first element that yields a string. -/
def firstFromArray : List PlistValue → Option String
  | [] => none
  | x :: rest =>
    match extract_string_from_plist x with
    | some s => some s
    | none => firstFromArray rest
end

/-- The external inputs of one reader poll: the plist crate and the home
directory. -/
structure MsgEnv where
  plistParse : List Nat → Option PlistValue
  homeDir : Option String

/-- `parse_via_plist` (messages.rs lines 432-437). -/
def parse_via_plist (env : MsgEnv) (data : List Nat) : Option String :=
  match env.plistParse data with
  | some v => extract_string_from_plist v
  | none => none

/-- Marker scan of `extract_message_text`: find the marker, then decode the
bytes after it. -/
def markerScan (data : List Nat) (marker : String) : Option String :=
  match find_subsequence data (strBytes marker) with
  | some pos => extract_text_after_marker (data.drop (pos + (strBytes marker).length))
  | none => none

/-- `extract_message_text` (messages.rs lines 312-326): the `NSString` then
`NSMutableString` markers, then the plist fallback. -/
def extract_message_text (env : MsgEnv) (data : List Nat) : Option String :=
  match markerScan data "NSString" with
  | some t => some t
  | none =>
    match markerScan data "NSMutableString" with
    | some t => some t
    | none => parse_via_plist env data

/-- `parse_attributed_body` (messages.rs lines 305-309). -/
def parse_attributed_body (env : MsgEnv) (data : List Nat) :
    Option String × Option String :=
  (extract_message_text env data, extract_audio_transcription data)

/-- `MACOS_EPOCH_OFFSET` from config.rs. -/
def MACOS_EPOCH_OFFSET : Int := 978307200

/-- `macos_to_datetime` (messages.rs lines 298-301); i64 division truncates
and the stored dates are positive. -/
def macos_to_datetime (ts : Int) : Int := ts / 1000000000 + MACOS_EPOCH_OFFSET

/-- One attachment row of the attachment join query. -/
structure AttRow where
  filename : Option String
  mimeType : Option String
  transferName : Option String
  totalBytes : Option Int
  deriving Repr, DecidableEq

instance exceptDecEq {ε α : Type} [DecidableEq ε] [DecidableEq α] :
    DecidableEq (Except ε α) := fun x y =>
  match x, y with
  | Except.ok a, Except.ok b =>
    if h : a = b then isTrue (by rw [h]) else isFalse (by intro hh; cases hh; exact h rfl)
  | Except.error a, Except.error b =>
    if h : a = b then isTrue (by rw [h]) else isFalse (by intro hh; cases hh; exact h rfl)
  | Except.ok _, Except.error _ => isFalse (by intro hh; cases hh)
  | Except.error _, Except.ok _ => isFalse (by intro hh; cases hh)

/-- One row of the poll query (messages.rs lines 99-127), together with the
database's answers to the two follow-up queries the reader may issue for
it: `requery` is the race-repair single-row chat query (`Except.error` is a
query error / missing row), `attachmentRows` the attachment join rows. -/
structure DbRow where
  rowid : Int
  date : Int
  phone : Option String
  text : Option String
  attributedBody : Option (List Nat)
  cacheHasAttachments : Bool
  isAudioMessage : Bool
  isFromMe : Bool
  chatStyle : Option Int
  displayName : Option String
  chatIdentifier : Option String
  threadOriginatorGuid : Option String
  requery : Except Unit (Option Int × Option String × Option String)
  attachmentRows : List AttRow
  deriving Repr, DecidableEq

/-- `Path::file_name().map(to_string_lossy).unwrap_or_default()` for the
ordinary relative/absolute paths stored in the database. -/
def fileNameOf (p : String) : String :=
  match ((p.splitOn "/").filter (fun s => s ≠ "")).getLast? with
  | some comp => if comp = ".." then "" else comp
  | none => ""

/-- `get_attachments` (messages.rs lines 244-294): keep rows with a
filename, expand `~/`, default mime type, name and size. -/
def get_attachments (env : MsgEnv) (rows : List AttRow) : List Attachment :=
  rows.filterMap (fun a =>
    match a.filename with
    | some path =>
      some { path :=
               if path.startsWith "~/" then
                 match env.homeDir with
                 | some h => h ++ "/" ++ (path.drop 2)
                 | none => path
               else path
             mimeType := a.mimeType.getD "unknown"
             name := a.transferName.getD (fileNameOf path)
             size := a.totalBytes.getD 0 }
    | none => none)

/-- The race repair (messages.rs lines 151-185): on NULL chat style,
re-query the chat columns; a query error keeps the original values. -/
def repairChat (row : DbRow) :
    Option Int × Option String × Option String :=
  if row.chatStyle.isNone then
    match row.requery with
    | Except.ok q => q
    | Except.error _ => (row.chatStyle, row.displayName, row.chatIdentifier)
  else (row.chatStyle, row.displayName, row.chatIdentifier)

/-- Text resolution (messages.rs lines 188-195): non-empty text that is not
the U+FFFC placeholder wins; else the blob is decoded; else nothing. -/
def resolveText (env : MsgEnv) (row : DbRow) : Option String × Option String :=
  match row.text, row.attributedBody with
  | some t, some blob =>
    if t ≠ "" ∧ t ≠ "￼" then (some t, none) else parse_attributed_body env blob
  | some t, none =>
    if t ≠ "" ∧ t ≠ "￼" then (some t, none) else (none, none)
  | none, some blob => parse_attributed_body env blob
  | none, none => (none, none)

/-- The per-row body of `get_new_messages` (messages.rs lines 129-231):
skip rows without a phone, repair the chat join, resolve text, drop rows
with no text and no attachment flag, fetch attachments, and build the
`Message`. -/
def processRow (env : MsgEnv) (row : DbRow) : Option Message :=
  match row.phone with
  | none => none
  | some phone =>
    let chat := repairChat row
    let ta := resolveText env row
    if ta.1 = none ∧ row.cacheHasAttachments = false then none
    else
      some { rowid := row.rowid
             timestamp := macos_to_datetime row.date
             sender := phone
             text := ta.1.getD ""
             chatId := chat.2.2.getD phone
             isFromMe := row.isFromMe
             isGroup := decide (chat.1 = some 43)
             groupName := if chat.1 = some 43 then chat.2.1 else none
             attachments :=
               if row.cacheHasAttachments then get_attachments env row.attachmentRows
               else []
             isAudioMessage := row.isAudioMessage
             audioTranscription := ta.2
             threadOriginatorGuid := row.threadOriginatorGuid }

/-- `get_new_messages` over a poll's rows. -/
def get_new_messages (env : MsgEnv) (rows : List DbRow) : List Message :=
  rows.filterMap (processRow env)

-- ===========================================================================
-- Theorem C4 (corrected): what the reader's drop check really guarantees
-- ===========================================================================

theorem processRow_guard (env : MsgEnv) (row : DbRow) (msg : Message)
    (hp : processRow env row = some msg) :
    (resolveText env row).1.isSome ∨ row.cacheHasAttachments = true := by
  unfold processRow at hp
  cases hph : row.phone with
  | none =>
    rw [hph] at hp
    exact absurd hp (by simp)
  | some phone =>
    rw [hph] at hp
    simp only at hp
    by_cases hc : (resolveText env row).1 = none ∧ row.cacheHasAttachments = false
    · rw [if_pos hc] at hp
      exact absurd hp (by simp)
    · rcases not_and_or.mp hc with h | h
      · exact Or.inl (Option.ne_none_iff_isSome.mp h)
      · refine Or.inr ?_
        revert h
        cases row.cacheHasAttachments <;> simp

/-- C4 (amended): every message a poll emits comes from a row whose
resolved-text option is present or whose `cache_has_attachments` flag is
set; the emitted message itself may still have empty text and an empty
attachment list (when the flagged row's attachment rows all lack
filenames). -/
theorem emitted_message_text_or_flag (env : MsgEnv) (rows : List DbRow)
    (msg : Message) (h : msg ∈ get_new_messages env rows) :
    ∃ row ∈ rows, processRow env row = some msg ∧
      ((resolveText env row).1.isSome ∨ row.cacheHasAttachments = true) := by
  rw [get_new_messages, List.mem_filterMap] at h
  obtain ⟨row, hrow, hp⟩ := h
  exact ⟨row, hrow, hp, processRow_guard env row msg hp⟩

/-- A poll environment with no home dir and a plist parser that never
succeeds (the blob is absent in the counterexample anyway). -/
def c4env : MsgEnv := { plistParse := fun _ => none, homeDir := none }

/-- A row with NULL text, NULL blob, the attachment flag set, and a single
attachment row whose filename is NULL. -/
def c4row : DbRow :=
  { rowid := 200, date := 0, phone := some "+15550001111", text := none
    attributedBody := none, cacheHasAttachments := true, isAudioMessage := false
    isFromMe := false, chatStyle := some 45, displayName := none
    chatIdentifier := some "+15550001111", threadOriginatorGuid := none
    requery := Except.ok (none, none, none)
    attachmentRows := [{ filename := none, mimeType := none,
                         transferName := none, totalBytes := none }] }

/-- The message the reader emits for that row. -/
def c4msg : Message :=
  { rowid := 200, timestamp := 978307200, sender := "+15550001111", text := ""
    chatId := "+15550001111", isFromMe := false, isGroup := false, groupName := none
    attachments := [], isAudioMessage := false, audioTranscription := none
    threadOriginatorGuid := none }

/-- C4 counterexample: the poll emits a message with empty text, no
attachments, and no audio transcription — the row's
`cache_has_attachments` flag was set but its only attachment row has no
filename, so the fetched list is empty while the drop check at messages.rs
line 198 only consults the flag. -/
theorem empty_message_emitted :
    get_new_messages c4env [c4row] = [c4msg] ∧
    c4msg.text = "" ∧ c4msg.attachments = [] ∧ c4msg.audioTranscription = none := by
  refine ⟨by decide, rfl, rfl, rfl⟩

/-- Witness for C4 at the counterexample row. -/
theorem emitted_message_text_or_flag_witness :
    ∃ row ∈ [c4row], processRow c4env row = some c4msg ∧
      ((resolveText c4env row).1.isSome ∨ row.cacheHasAttachments = true) :=
  emitted_message_text_or_flag c4env [c4row] c4msg (by decide)
